import Mathlib

/-!
Shallow embedding of the `crow` roundabout (src/roundabout.go) and proofs
about its specification.

Machine integers are modelled as `Nat` with explicit `% 2^w` at the points
where the Go code's fixed-width types wrap.  The 64-bit packed header and
cell words, including the exact mask constants of the source
(`65535`, `2147483647`), are reproduced verbatim.  Atomic CAS loops are
modelled deterministically (single-threaded execution: a CAS succeeds),
which matches the per-operation contracts the claims state.
-/

namespace Crow

/-- width of the ring (const width = 32). -/
def width : Nat := 32

-- roundabout cell kinds (Go iota constants)
def ZeroCell : Nat := 0
def PendingCell : Nat := 1
def ShareLane : Nat := 2
def ShareRing : Nat := 3
def OrderLane : Nat := 4
def OrderRing : Nat := 5
def LockLane : Nat := 6
def LockRing : Nat := 7

/-- the header of the ring buffer: `(epoch:u16, flags:u16, bitmap:u32)`. -/
structure Header where
  epoch : Nat
  flags : Nat
  bitmap : Nat
deriving DecidableEq, Repr

/-- `Header.pack`: `(uint64(epoch) << 48) | (uint64(flags) << 32) | uint64(bitmap)`. -/
def Header.pack (h : Header) : Nat :=
  (h.epoch <<< 48) ||| (h.flags <<< 32) ||| h.bitmap

/-- `unpackHeader`: note the source masks the bitmap with `2147483647`
(0x7FFFFFFF), not `4294967295`, so bit 31 of the bitmap subfield is dropped. -/
def unpackHeader (h : Nat) : Header :=
  { epoch := (h >>> 48) &&& 65535
    flags := (h >>> 32) &&& 65535
    bitmap := h &&& 2147483647 }

/-- a ring-buffer entry: `(epoch:u16, kind:u16, lane:u32)`. -/
structure Cell where
  epoch : Nat
  kind : Nat
  lane : Nat
deriving DecidableEq, Repr

/-- `Cell.pack`: `(uint64(epoch) << 48) | (uint64(kind) << 32) | uint64(lane)`. -/
def Cell.pack (c : Cell) : Nat :=
  (c.epoch <<< 48) ||| (c.kind <<< 32) ||| c.lane

/-- `unpackCell`: again the source's lane mask is `2147483647` (31 bits). -/
def unpackCell (h : Nat) : Cell :=
  { epoch := (h >>> 48) &&& 65535
    kind := (h >>> 32) &&& 65535
    lane := h &&& 2147483647 }

/-- a cell in use in the roundabout (`rb_cell`). -/
structure rb_cell where
  n : Nat
  epoch : Nat
  flags : Nat
  kind : Nat
  lane : Nat
  bitmap : Nat
deriving DecidableEq, Repr

/-- a change to the headers (`rb_fence`). -/
structure rb_fence where
  epoch : Nat
  flags : Nat
  new_flags : Nat
  bitmap : Nat
deriving DecidableEq, Repr

/-- the roundabout: a 64-bit header word and 32 cell words.
The log is a list of 32 packed 64-bit words. -/
structure Roundabout where
  header : Nat
  log : List Nat
deriving DecidableEq, Repr

/-- the zero-initialised roundabout (valid initial state per the spec). -/
def Roundabout.init : Roundabout :=
  { header := 0, log := List.replicate 32 0 }

-- true subfields of the raw 64-bit header word, used to state claims about
-- "the header's epoch/flags/bitmap subfield" independently of the code's
-- unpacking
def epochField (h : Nat) : Nat := (h >>> 48) % 65536
def flagsField (h : Nat) : Nat := (h >>> 32) % 65536
def bitmapField (h : Nat) : Nat := h % 4294967296

/-- `bits.RotateLeft32` for a non-negative rotation count. -/
def rotateLeft32 (x k : Nat) : Nat :=
  let s := k % 32
  ((x <<< s) ||| (x >>> (32 - s))) % 4294967296

namespace Roundabout

/-- `Epoch()`. -/
def Epoch (rb : Roundabout) : Nat :=
  (unpackHeader rb.header).epoch

/-- `Flags()`. -/
def Flags (rb : Roundabout) : Nat :=
  (unpackHeader rb.header).flags

/-- the scan loop of `Active`:
`for i := 0; i < width-int(diff); i++ { if bitmap&1 == 1 { return true }; bitmap >>= 1 }`. -/
def activeLoop : Nat → Nat → Bool
  | _, 0 => false
  | bitmap, k+1 => if bitmap &&& 1 = 1 then true else activeLoop (bitmap >>> 1) k

/-- `Active(epoch)`, translated verbatim: the `h.epoch == epoch` branch
returns `bitmap == 0`, `diff` is unsigned 16-bit subtraction, and the
rotation uses `int(h.epoch-1) % width`. -/
def Active (rb : Roundabout) (epoch : Nat) : Bool :=
  let h := unpackHeader rb.header
  if h.epoch = epoch then
    h.bitmap == 0
  else
    let diff := (h.epoch + 65536 - epoch) % 65536
    if diff < 0 ∨ diff ≥ width then
      false
    else
      let bitmap := rotateLeft32 h.bitmap (((h.epoch + 65536 - 1) % 65536) % width)
      let bitmap := bitmap >>> diff
      activeLoop bitmap (width - diff)

/-- `push(lane, kind)`: deterministic model; `none` models the retry signal.
The CAS succeeds whenever the bitmap test passes (single-threaded model). -/
def push (rb : Roundabout) (lane kind : Nat) : Option rb_cell × Roundabout :=
  let header := rb.header
  let h := unpackHeader header
  let n := h.epoch % width
  let b := 1 <<< n
  if h.bitmap &&& b = 0 then
    let new_header := (Header.mk ((h.epoch + 1) % 65536) h.flags (h.bitmap ||| b)).pack
    let item := (Cell.mk h.epoch kind lane).pack
    (some (rb_cell.mk n h.epoch h.flags kind lane h.bitmap),
     { header := new_header, log := rb.log.set n item })
  else
    (none, rb)

/-- decision of one iteration of a per-cell spin loop. -/
inductive Decision where
  | spin
  | pass
deriving DecidableEq, Repr

/-- the lane test at the bottom of the per-cell loop of `wait`:
`if rb.Conflict == nil { if r.lane == item.lane { continue } } else if rb.Conflict(r.lane, item.lane) { continue }` followed by `break`. -/
def waitLaneStep (conflict : Option (Nat → Nat → Bool)) (rLane itemLane : Nat) : Decision :=
  match conflict with
  | none => if rLane = itemLane then .spin else .pass
  | some f => if f rLane itemLane then .spin else .pass

/-- the per-cell decision taken inside `wait` given the loaded `item` for
expected epoch `epoch`: `.spin` is `continue` (reload and spin), `.pass` is
`break` (next predecessor).  Translated branch for branch from the source. -/
def waitStep (conflict : Option (Nat → Nat → Bool)) (rKind rLane : Nat)
    (epoch : Nat) (item : Cell) : Decision :=
  if item.kind = ZeroCell then
    .spin
  else if item.epoch = epoch then
    if item.kind = PendingCell then
      .spin
    else if rKind = LockRing ∨ item.kind = LockRing then
      .spin
    else if rKind = OrderRing then
      if item.kind = ShareLane ∨ item.kind = ShareRing then .pass else .spin
    else if rKind = ShareRing then
      if item.kind = LockLane ∨ item.kind = LockRing then .spin else .pass
    else if rKind = LockLane then
      if item.kind = LockRing ∨ item.kind = OrderRing ∨ item.kind = ShareRing then .spin
      else waitLaneStep conflict rLane item.lane
    else if rKind = OrderLane then
      if item.kind = LockRing ∨ item.kind = OrderRing then .spin
      else if item.kind = ShareLane ∨ item.kind = ShareRing then .pass
      else waitLaneStep conflict rLane item.lane
    else if rKind = ShareLane then
      if item.kind = LockRing then .spin
      else if item.kind = OrderLane ∨ item.kind = OrderRing then .pass
      else if item.kind = ShareLane ∨ item.kind = ShareRing then .pass
      else waitLaneStep conflict rLane item.lane
    else
      waitLaneStep conflict rLane item.lane
  else
    .pass

/-- `pop(r)`: store `(epoch+width, PendingCell, 0)` into cell `n`, then
`header.And(^b)` with `b = 1 << r.n` over the 64-bit header word. -/
def pop (rb : Roundabout) (r : rb_cell) : Roundabout :=
  let next_item := (Cell.mk ((r.epoch + width) % 65536) PendingCell 0).pack
  let log' := rb.log.set r.n next_item
  let b := 1 <<< r.n
  { header := rb.header &&& ((2 ^ 64 - 1) ^^^ b), log := log' }

/-- `setFence(flags)`: deterministic model; `none` models the retry signal. -/
def setFence (rb : Roundabout) (flags : Nat) : Option rb_fence × Roundabout :=
  let h := unpackHeader rb.header
  if h.flags &&& flags ≠ 0 then
    (none, rb)
  else
    let new_header := (Header.mk h.epoch (h.flags ||| flags) h.bitmap).pack
    (some (rb_fence.mk h.epoch flags (h.flags ||| flags) h.bitmap),
     { rb with header := new_header })

/-- the per-cell decision inside `spinFence` for expected epoch `epoch`. -/
def spinFenceStep (epoch : Nat) (item : Cell) : Decision :=
  if item.kind = ZeroCell then
    .spin
  else if item.epoch = epoch then
    if item.kind = ShareLane ∨ item.kind = ShareRing then .pass else .spin
  else
    .pass

/-- the scan loop of `spinFence`: collects, in order, the expected epochs of
the occupied predecessor slots it spins on; `epoch` is uint16 and wraps. -/
def spinFenceGo : Nat → Nat → Nat → List Nat
  | 0, _, _ => []
  | k+1, epoch, bitmap =>
    if bitmap &&& 1 = 0 then
      spinFenceGo k ((epoch + 1) % 65536) (bitmap >>> 1)
    else
      epoch :: spinFenceGo k ((epoch + 1) % 65536) (bitmap >>> 1)

/-- the predecessor enumeration of `spinFence(s)`: 32 iterations starting at
`s.epoch - 32`, over the snapshot bitmap rotated by `-n` (in Go a negative
rotation by `-n` is a rotation left by `(32 - n) % 32`). -/
def spinFenceScan (s : rb_fence) : List Nat :=
  if s.bitmap = 0 then
    []
  else
    let n := s.epoch % width
    spinFenceGo 32 ((s.epoch + 65536 - 32) % 65536)
      (rotateLeft32 s.bitmap ((32 - n) % 32))

/-- `clearFence(s)`: XOR the fence's flags back out; returns the epoch at the
moment of clearing (CAS succeeds in the deterministic model). -/
def clearFence (rb : Roundabout) (s : rb_fence) : Nat × Roundabout :=
  let h := unpackHeader rb.header
  let new_header := (Header.mk h.epoch (h.flags ^^^ s.flags) h.bitmap).pack
  (h.epoch, { rb with header := new_header })

/-- `LockRing(fn)`: push a `LockRing` descriptor, wait (a pure reader of the
log, omitted from the state transition), run the callback once, pop
(deferred), and return the callback result.  Callback invocations are
returned as an explicit `(epoch, flags)` list; `none` models the retry loop
re-running `push`. -/
def LockRing {ε : Type} (rb : Roundabout) (fn : Nat → Nat → Option ε) :
    Option (Option ε × Roundabout × List (Nat × Nat)) :=
  match push rb 0 Crow.LockRing with
  | (none, _) => none
  | (some r, rb1) => some (fn r.epoch r.flags, pop rb1 r, [(r.epoch, r.flags)])

/-- `OrderRing(fn)`. -/
def OrderRing {ε : Type} (rb : Roundabout) (fn : Nat → Nat → Option ε) :
    Option (Option ε × Roundabout × List (Nat × Nat)) :=
  match push rb 0 Crow.OrderRing with
  | (none, _) => none
  | (some r, rb1) => some (fn r.epoch r.flags, pop rb1 r, [(r.epoch, r.flags)])

/-- `ShareRing(fn)`. -/
def ShareRing {ε : Type} (rb : Roundabout) (fn : Nat → Nat → Option ε) :
    Option (Option ε × Roundabout × List (Nat × Nat)) :=
  match push rb 0 Crow.ShareRing with
  | (none, _) => none
  | (some r, rb1) => some (fn r.epoch r.flags, pop rb1 r, [(r.epoch, r.flags)])

/-- `LockLane(lane, fn)`. -/
def LockLane {ε : Type} (rb : Roundabout) (lane : Nat) (fn : Nat → Nat → Option ε) :
    Option (Option ε × Roundabout × List (Nat × Nat)) :=
  match push rb lane Crow.LockLane with
  | (none, _) => none
  | (some r, rb1) => some (fn r.epoch r.flags, pop rb1 r, [(r.epoch, r.flags)])

/-- `OrderLane(lane, fn)`. -/
def OrderLane {ε : Type} (rb : Roundabout) (lane : Nat) (fn : Nat → Nat → Option ε) :
    Option (Option ε × Roundabout × List (Nat × Nat)) :=
  match push rb lane Crow.OrderLane with
  | (none, _) => none
  | (some r, rb1) => some (fn r.epoch r.flags, pop rb1 r, [(r.epoch, r.flags)])

/-- `ShareLane(lane, fn)`. -/
def ShareLane {ε : Type} (rb : Roundabout) (lane : Nat) (fn : Nat → Nat → Option ε) :
    Option (Option ε × Roundabout × List (Nat × Nat)) :=
  match push rb lane Crow.ShareLane with
  | (none, _) => none
  | (some r, rb1) => some (fn r.epoch r.flags, pop rb1 r, [(r.epoch, r.flags)])

/-- `Phase(flags, fn, after)`: setFence, spinFence (a pure reader, omitted
from the state transition), `fn`, clearFence capturing the end epoch, then
`after` only when `fn` returned nil.  Returns the final result, the final
state, the list of `fn` invocations and the list of `after` invocations;
`none` models the retry loop re-running `setFence`. -/
def Phase {ε : Type} (rb : Roundabout) (flags : Nat) (fn after : Nat → Nat → Option ε) :
    Option (Option ε × Roundabout × List (Nat × Nat) × List (Nat × Nat)) :=
  match setFence rb flags with
  | (none, _) => none
  | (some s, rb1) =>
    let err := fn s.epoch s.new_flags
    let (endEpoch, rb2) := clearFence rb1 s
    match err with
    | some e => some (some e, rb2, [(s.epoch, s.new_flags)], [])
    | none => some (after s.epoch endEpoch, rb2, [(s.epoch, s.new_flags)], [(s.epoch, endEpoch)])

/-- one `push`-`pop` cycle by a helper thread (its `wait` is a pure reader
and its scan mask is empty throughout the trace below); returns the slot it
occupied and released. -/
def cycleStep (rb : Roundabout) : Option Nat × Roundabout :=
  match push rb 0 Crow.LockLane with
  | (some r, rb1) => (some r.n, pop rb1 r)
  | (none, rb1) => (none, rb1)

/-- iterate `cycleStep`, collecting the slots occupied and released. -/
def runCycles : Nat → Roundabout → List (Option Nat) × Roundabout
  | 0, rb => ([], rb)
  | k+1, rb =>
    let p := cycleStep rb
    let q := runCycles k p.2
    (p.1 :: q.1, q.2)

end Roundabout

-- A concrete interleaving of LockRing callers, used to analyse mutual
-- exclusion: thread A admits a LockRing at slot 31 and stays inside its
-- callback (it never pops); a helper thread then runs 31 push/pop cycles
-- through slots 0..30; thread B then attempts a second LockRing.

/-- state after 31 helper cycles from the zero state (header epoch 31, empty
bitmap). -/
def lockRingTraceA : Option rb_cell × Roundabout :=
  Roundabout.push (Roundabout.runCycles 31 Roundabout.init).2 0 LockRing

/-- 31 further helper cycles run while thread A is inside its callback. -/
def lockRingTraceMid : List (Option Nat) × Roundabout :=
  Roundabout.runCycles 31 lockRingTraceA.2

/-- the second LockRing admission attempt by thread B, with thread A still
inside its callback. -/
def lockRingTraceB : Option rb_cell × Roundabout :=
  Roundabout.push lockRingTraceMid.2 0 LockRing

/-- a header word whose bitmap subfield has bit 31 set and whose epoch is
congruent to 31 mod 32: the state reached from zero by 31 push/pop cycles
followed by a push that claimed slot 31 and 31 further push/pop cycles would
have epoch 63; here the log is left zeroed since only the header matters. -/
def rbSlot31 : Roundabout :=
  { header := (63 <<< 48) ||| (1 <<< 31), log := List.replicate 32 0 }

/-- a header word with epoch 32 and bitmap bit 31 set (the state directly
after a push claimed slot 31 at epoch 31). -/
def rbFenceBug : Roundabout :=
  { header := (32 <<< 48) ||| (1 <<< 31), log := List.replicate 32 0 }

/-- an entry of the conflict matrix: block, pass, or lane-match. -/
inductive MatrixEntry where
  | B
  | P
  | L
deriving DecidableEq, Repr

/-- Modelled from the spec: the conflict matrix of section 4.2 (rows the
caller kind, columns the observed predecessor kind). -/
def specConflictMatrix (caller pred : Nat) : MatrixEntry :=
  if caller = ShareLane then
    if pred = LockLane then .L
    else if pred = LockRing then .B
    else .P
  else if caller = ShareRing then
    if pred = LockLane ∨ pred = LockRing then .B else .P
  else if caller = OrderLane then
    if pred = ShareLane ∨ pred = ShareRing then .P
    else if pred = OrderLane ∨ pred = LockLane then .L
    else .B
  else if caller = OrderRing then
    if pred = ShareLane ∨ pred = ShareRing then .P else .B
  else if caller = LockLane then
    if pred = ShareLane ∨ pred = OrderLane ∨ pred = LockLane then .L else .B
  else
    .B

/-- Modelled from the spec: `lane_conflict(a, b)` defaults to `a == b`;
callers may install a custom predicate. -/
def lane_conflict (conflict : Option (Nat → Nat → Bool)) (a b : Nat) : Bool :=
  match conflict with
  | none => a == b
  | some f => f a b

/-- Modelled from the spec: the decision the conflict matrix prescribes for
a caller observing a predecessor: B blocks, P passes, L blocks iff
`lane_conflict` holds of the two lanes. -/
def specMatrixDecision (conflict : Option (Nat → Nat → Bool))
    (callerKind callerLane predKind predLane : Nat) : Roundabout.Decision :=
  match specConflictMatrix callerKind predKind with
  | .B => .spin
  | .P => .pass
  | .L => if lane_conflict conflict callerLane predLane then .spin else .pass

end Crow

namespace Crow

/-- Claim C2: push must signal retry whenever the occupancy bit at index
`n = epoch mod 32` of the header bitmap is set, including `n = 31`.  The
code violates this at `n = 31`: `unpackHeader` masks the bitmap with
`2147483647` (31 bits), so bit 31 of the occupancy bitmap is invisible to
`push`.  At a header with epoch 63 and bitmap bit 31 set, `push` succeeds
instead of retrying, and the handle it returns carries scan mask 0 rather
than the true pre-admission bitmap `2^31`. -/
theorem push_ignores_bitmap_bit31 :
    (bitmapField rbSlot31.header).testBit 31 = true ∧
    epochField rbSlot31.header % 32 = 31 ∧
    (Roundabout.push rbSlot31 0 LockRing).1 =
      some (rb_cell.mk 31 63 0 LockRing 0 0) := by
  refine ⟨by decide, by decide, by decide⟩

/-- Claim C3: the spec requires `Active(e)`, at `e` equal to the current
header epoch, to return `bitmap != 0`; on the zero-initialised roundabout no
descriptor occupies the ring, so `Active(0)` must be false.  The code
returns `bitmap == 0`, hence `true`. -/
theorem active_inverted_at_current_epoch :
    Roundabout.Active Roundabout.init 0 = true ∧
    bitmapField Roundabout.init.header = 0 := by
  exact ⟨rfl, rfl⟩

/-- Claim C4: the pack/unpack round trip loses bit 31 of the lane because
`unpackCell` masks with `2147483647`: the 32-bit lane `2^31` comes back as
`0`. -/
theorem unpackCell_pack_loses_lane_bit31 :
    unpackCell (Cell.pack (Cell.mk 0 0 2147483648)) = Cell.mk 0 0 0 ∧
    Cell.mk 0 0 0 ≠ Cell.mk 0 0 2147483648 ∧
    2147483648 < 2 ^ 32 := by
  refine ⟨rfl, by decide, by decide⟩

set_option maxRecDepth 100000 in
/-- Claim C5: two LockRing callbacks can overlap.  In the concrete
interleaving `lockRingTraceA`/`lockRingTraceMid`/`lockRingTraceB`, thread A
is admitted as a LockRing at slot 31 with an empty scan mask (so its `wait`
returns at once and its callback starts) and never pops; the 31 helper
cycles admit and retract only slots 0..30, so the slot of A stays occupied;
yet the LockRing push of thread B also succeeds, at slot 31, again with an
empty scan mask, so the callback of B starts while the callback of A is
still running.  The root cause is the 31-bit bitmap mask in
`unpackHeader`. -/
theorem two_lockRing_callbacks_overlap :
    lockRingTraceA.1 = some (rb_cell.mk 31 31 0 LockRing 0 0) ∧
    lockRingTraceMid.1 = (List.range 31).map (fun i => some i) ∧
    lockRingTraceB.1 = some (rb_cell.mk 31 63 0 LockRing 0 0) := by
  exact ⟨rfl, rfl, rfl⟩

/-- Claim C8: on success `setFence` must leave the epoch and bitmap
subfields unchanged and return the pre-update bitmap snapshot.  At a header
with bitmap bit 31 set the code instead clears bit 31 (the `unpackHeader`
mask drops it) and records snapshot 0. -/
theorem setFence_drops_bitmap_bit31 :
    bitmapField rbFenceBug.header = 2 ^ 31 ∧
    (Roundabout.setFence rbFenceBug 1).1 =
      some (rb_fence.mk 32 1 1 0) ∧
    bitmapField (Roundabout.setFence rbFenceBug 1).2.header = 0 := by
  refine ⟨by decide, by decide, by decide⟩

end Crow

namespace Crow

/-- Claim C1: for every caller kind among the six semantic kinds and every
observed predecessor cell whose epoch equals the expected epoch and whose
kind is one of the six semantic kinds, the per-cell decision taken inside
`wait` equals the decision the conflict matrix of the spec prescribes, with
lane-block meaning block iff `lane_conflict` (equality when no Conflict
predicate is installed, the installed predicate otherwise). -/
theorem waitStep_matches_specMatrix (conflict : Option (Nat → Nat → Bool))
    (rKind rLane ep : Nat) (item : Cell)
    (hr : rKind = ShareLane ∨ rKind = ShareRing ∨ rKind = OrderLane ∨
          rKind = OrderRing ∨ rKind = LockLane ∨ rKind = LockRing)
    (hi : item.kind = ShareLane ∨ item.kind = ShareRing ∨ item.kind = OrderLane ∨
          item.kind = OrderRing ∨ item.kind = LockLane ∨ item.kind = LockRing)
    (he : item.epoch = ep) :
    Roundabout.waitStep conflict rKind rLane ep item =
      specMatrixDecision conflict rKind rLane item.kind item.lane := by
  obtain ⟨ie, ik, il⟩ := item
  simp only at he hi ⊢
  subst he
  rcases hr with rfl | rfl | rfl | rfl | rfl | rfl <;>
    rcases hi with h | h | h | h | h | h <;>
      subst h <;>
        simp [Roundabout.waitStep, Roundabout.waitLaneStep, specMatrixDecision,
          specConflictMatrix, lane_conflict, ShareLane, ShareRing, OrderLane,
          OrderRing, LockLane, LockRing, ZeroCell, PendingCell] <;>
        cases conflict <;>
          simp [beq_iff_eq]

/-- concrete instance of claim C1: a ShareLane caller over a LockLane
predecessor with equal lanes and no installed Conflict predicate blocks. -/
theorem waitStep_matches_specMatrix_witness :
    (ShareLane = ShareLane ∨ ShareLane = ShareRing ∨ ShareLane = OrderLane ∨
      ShareLane = OrderRing ∨ ShareLane = LockLane ∨ ShareLane = LockRing) ∧
    ((Cell.mk 7 LockLane 5).kind = ShareLane ∨ (Cell.mk 7 LockLane 5).kind = ShareRing ∨
      (Cell.mk 7 LockLane 5).kind = OrderLane ∨ (Cell.mk 7 LockLane 5).kind = OrderRing ∨
      (Cell.mk 7 LockLane 5).kind = LockLane ∨ (Cell.mk 7 LockLane 5).kind = LockRing) ∧
    (Cell.mk 7 LockLane 5).epoch = 7 ∧
    Roundabout.waitStep none ShareLane 5 7 (Cell.mk 7 LockLane 5) =
      specMatrixDecision none ShareLane 5 (Cell.mk 7 LockLane 5).kind (Cell.mk 7 LockLane 5).lane :=
  ⟨by decide, by decide, by decide,
    waitStep_matches_specMatrix none ShareLane 5 7 (Cell.mk 7 LockLane 5)
      (by decide) (by decide) (by decide)⟩

end Crow

namespace Crow

theorem testBit_and_not_pow (h n j : Nat) (hh : h < 2 ^ 64) (hn : n < 32) :
    (h &&& ((2 ^ 64 - 1) ^^^ (1 <<< n))).testBit j =
      (h.testBit j && !(decide (j = n))) := by
  rw [Nat.testBit_land, Nat.testBit_xor, Nat.testBit_two_pow_sub_one,
    Nat.shiftLeft_eq, one_mul, Nat.testBit_two_pow]
  by_cases hj : j < 64
  · have hnj : n = j ↔ j = n := by omega
    simp [hnj, hj]
  · have h1 : h.testBit j = false :=
      Nat.testBit_lt_two_pow (lt_of_lt_of_le hh (Nat.pow_le_pow_right (by omega) (by omega)))
    have h2 : ¬ (n = j) := by omega
    simp [h1, h2, hj]

theorem epochField_and_not_pow (h n : Nat) (hh : h < 2 ^ 64) (hn : n < 32) :
    epochField (h &&& ((2 ^ 64 - 1) ^^^ (1 <<< n))) = epochField h := by
  unfold epochField
  congr 1
  apply Nat.eq_of_testBit_eq
  intro i
  rw [Nat.testBit_shiftRight, Nat.testBit_shiftRight,
    testBit_and_not_pow h n (48 + i) hh hn]
  have : ¬ (48 + i = n) := by omega
  simp [this]

theorem flagsField_and_not_pow (h n : Nat) (hh : h < 2 ^ 64) (hn : n < 32) :
    flagsField (h &&& ((2 ^ 64 - 1) ^^^ (1 <<< n))) = flagsField h := by
  unfold flagsField
  have h65536 : (65536 : Nat) = 2 ^ 16 := by norm_num
  rw [h65536]
  apply Nat.eq_of_testBit_eq
  intro i
  rw [Nat.testBit_mod_two_pow, Nat.testBit_mod_two_pow,
    Nat.testBit_shiftRight, Nat.testBit_shiftRight,
    testBit_and_not_pow h n (32 + i) hh hn]
  have : ¬ (32 + i = n) := by omega
  simp [this]

theorem bitmapField_testBit (h k : Nat) (hk : k < 32) :
    (bitmapField h).testBit k = h.testBit k := by
  unfold bitmapField
  have h32 : (4294967296 : Nat) = 2 ^ 32 := by norm_num
  rw [h32, Nat.testBit_mod_two_pow]
  simp [hk]

/-- Claim C6: for a handle of a successful push (slot index below 32),
`pop` stores the packed descriptor `(r.epoch + 32, Pending, 0)` into cell
`n` and clears exactly bit `n` of the bitmap subfield of the header, leaving
the epoch subfield, the flags subfield, every other bitmap bit, and every
other cell unchanged. -/
theorem pop_clears_exactly_bit_n (rb : Roundabout) (r : rb_cell)
    (hn : r.n < 32) (hh : rb.header < 2 ^ 64) (hlen : rb.log.length = 32) :
    epochField (rb.pop r).header = epochField rb.header ∧
    flagsField (rb.pop r).header = flagsField rb.header ∧
    (bitmapField (rb.pop r).header).testBit r.n = false ∧
    (∀ k, k < 32 → k ≠ r.n →
      (bitmapField (rb.pop r).header).testBit k = (bitmapField rb.header).testBit k) ∧
    (rb.pop r).log[r.n]? = some ((Cell.mk ((r.epoch + 32) % 65536) PendingCell 0).pack) ∧
    (∀ m, m ≠ r.n → (rb.pop r).log[m]? = rb.log[m]?) := by
  have hpop : (rb.pop r).header = rb.header &&& ((2 ^ 64 - 1) ^^^ (1 <<< r.n)) := rfl
  have hlog : (rb.pop r).log =
      rb.log.set r.n ((Cell.mk ((r.epoch + width) % 65536) PendingCell 0).pack) := rfl
  rw [hpop, hlog]
  refine ⟨epochField_and_not_pow rb.header r.n hh hn,
    flagsField_and_not_pow rb.header r.n hh hn, ?_, ?_, ?_, ?_⟩
  · rw [bitmapField_testBit _ _ hn, testBit_and_not_pow rb.header r.n r.n hh hn]
    simp
  · intro k hk hkn
    rw [bitmapField_testBit _ _ hk, bitmapField_testBit _ _ hk,
      testBit_and_not_pow rb.header r.n k hh hn]
    simp [hkn]
  · rw [List.getElem?_set_eq_of_lt _ (by omega)]
    rfl
  · intro m hm
    exact List.getElem?_set_ne (by omega)

/-- concrete instance of claim C6: popping the handle of slot 3 at epoch 3
from a header with bitmap bits 3 and 5 set clears exactly bit 3 and
installs the resting descriptor in cell 3. -/
theorem pop_clears_exactly_bit_n_witness :
    (rb_cell.mk 3 3 0 LockLane 9 32).n < 32 ∧
    ((3 <<< 48) ||| 40 : Nat) < 2 ^ 64 ∧
    (List.replicate 32 (0 : Nat)).length = 32 ∧
    (epochField (Roundabout.pop (Roundabout.mk ((3 <<< 48) ||| 40) (List.replicate 32 0))
        (rb_cell.mk 3 3 0 LockLane 9 32)).header =
      epochField ((3 <<< 48) ||| 40 : Nat) ∧
    flagsField (Roundabout.pop (Roundabout.mk ((3 <<< 48) ||| 40) (List.replicate 32 0))
        (rb_cell.mk 3 3 0 LockLane 9 32)).header =
      flagsField ((3 <<< 48) ||| 40 : Nat) ∧
    (bitmapField (Roundabout.pop (Roundabout.mk ((3 <<< 48) ||| 40) (List.replicate 32 0))
        (rb_cell.mk 3 3 0 LockLane 9 32)).header).testBit
      (rb_cell.mk 3 3 0 LockLane 9 32).n = false ∧
    (∀ k, k < 32 → k ≠ (rb_cell.mk 3 3 0 LockLane 9 32).n →
      (bitmapField (Roundabout.pop (Roundabout.mk ((3 <<< 48) ||| 40) (List.replicate 32 0))
          (rb_cell.mk 3 3 0 LockLane 9 32)).header).testBit k =
        (bitmapField ((3 <<< 48) ||| 40 : Nat)).testBit k) ∧
    (Roundabout.pop (Roundabout.mk ((3 <<< 48) ||| 40) (List.replicate 32 0))
        (rb_cell.mk 3 3 0 LockLane 9 32)).log[(rb_cell.mk 3 3 0 LockLane 9 32).n]? =
      some ((Cell.mk (((rb_cell.mk 3 3 0 LockLane 9 32).epoch + 32) % 65536) PendingCell 0).pack) ∧
    (∀ m, m ≠ (rb_cell.mk 3 3 0 LockLane 9 32).n →
      (Roundabout.pop (Roundabout.mk ((3 <<< 48) ||| 40) (List.replicate 32 0))
          (rb_cell.mk 3 3 0 LockLane 9 32)).log[m]? =
        (List.replicate 32 (0 : Nat))[m]?)) :=
  ⟨by decide, by decide, by decide,
    pop_clears_exactly_bit_n (Roundabout.mk ((3 <<< 48) ||| 40) (List.replicate 32 0))
      (rb_cell.mk 3 3 0 LockLane 9 32) (by decide) (by decide) (by decide)⟩

end Crow

namespace Crow

theorem spinFenceGo_eq (k : Nat) : ∀ e b : Nat, e < 65536 →
    Roundabout.spinFenceGo k e b =
      (List.range k).filterMap
        (fun i => if (b >>> i) &&& 1 = 1 then some ((e + i) % 65536) else none) := by
  induction k with
  | zero => intro e b he; rfl
  | succ k ih =>
    intro e b he
    rw [List.range_succ_eq_map, List.filterMap_cons, List.filterMap_map]
    have hgo : Roundabout.spinFenceGo (k + 1) e b =
        if b &&& 1 = 0 then Roundabout.spinFenceGo k ((e + 1) % 65536) (b >>> 1)
        else e :: Roundabout.spinFenceGo k ((e + 1) % 65536) (b >>> 1) := rfl
    rw [hgo, ih ((e + 1) % 65536) (b >>> 1) (Nat.mod_lt _ (by omega))]
    have hcomp : (List.range k).filterMap
          ((fun i => if (b >>> i) &&& 1 = 1 then some ((e + i) % 65536) else none) ∘ Nat.succ) =
        (List.range k).filterMap
          (fun i => if ((b >>> 1) >>> i) &&& 1 = 1 then some (((e + 1) % 65536 + i) % 65536) else none) := by
      apply List.filterMap_congr
      intro i _
      show (if (b >>> (i + 1)) &&& 1 = 1 then some ((e + (i + 1)) % 65536) else none) = _
      have h1 : b >>> (i + 1) = (b >>> 1) >>> i := by
        rw [← Nat.shiftRight_add]
        ring_nf
      have h2 : (e + (i + 1)) % 65536 = ((e + 1) % 65536 + i) % 65536 := by
        omega
      rw [h1, h2]
    rw [hcomp]
    have hb0 : b >>> 0 = b := rfl
    have hmod : b &&& 1 = b % 2 := Nat.and_one_is_mod b
    by_cases hb : b &&& 1 = 0
    · have hne : ¬ (b >>> 0) &&& 1 = 1 := by rw [hb0]; omega
      simp [hb, hne]
    · have hb1 : (b >>> 0) &&& 1 = 1 := by rw [hb0]; omega
      have hb2 : b % 2 = 1 := by rw [hmod] at hb; omega
      simp [hb, hb1, hb2, Nat.mod_eq_of_lt he]

end Crow

namespace Crow

theorem rotateLeft32_testBit (x s j : Nat) (hx : x < 2 ^ 32) (hs : s < 32) (hj : j < 32) :
    (rotateLeft32 x s).testBit j = x.testBit ((j + 32 - s) % 32) := by
  unfold rotateLeft32
  simp only [Nat.mod_eq_of_lt hs]
  have h32 : (4294967296 : Nat) = 2 ^ 32 := by norm_num
  rw [h32, Nat.testBit_mod_two_pow, Nat.testBit_lor, Nat.testBit_shiftLeft,
    Nat.testBit_shiftRight]
  by_cases hjs : s ≤ j
  · have h1 : x.testBit (32 - s + j) = false :=
      Nat.testBit_lt_two_pow (lt_of_lt_of_le hx (Nat.pow_le_pow_right (by omega) (by omega)))
    have h2 : (j + 32 - s) % 32 = j - s := by omega
    simp [hj, hjs, h1, h2]
  · have h2 : (j + 32 - s) % 32 = 32 - s + j := by omega
    have h3 : ¬ (j ≥ s) := hjs
    simp [hj, h3, h2]

theorem and_one_eq_one_iff_testBit (b i : Nat) :
    (b >>> i) &&& 1 = 1 ↔ b.testBit i = true := by
  rw [Nat.and_one_is_mod, Nat.shiftRight_eq_div_pow, Nat.testBit_to_div_mod]
  simp

/-- Claim C7: `spinFence` enumerates exactly the 32 predecessor epochs from
`record.epoch - 32` through `record.epoch - 1` whose snapshot bitmap bit is
set, and its per-cell step passes precisely on a written cell whose epoch
differs from the expected epoch or whose kind is ShareLane or ShareRing; it
spins on a ZeroCell and on every written cell with matching epoch and any
other kind. -/
theorem spinFence_scan_and_step (s : rb_fence)
    (he : s.epoch < 65536) (hb : s.bitmap < 2 ^ 32) :
    Roundabout.spinFenceScan s =
      (List.range 32).filterMap (fun i =>
        if s.bitmap.testBit ((s.epoch + 65536 - 32 + i) % 65536 % 32)
        then some ((s.epoch + 65536 - 32 + i) % 65536) else none) ∧
    (∀ ep item, Roundabout.spinFenceStep ep item = .pass ↔
      (item.kind ≠ ZeroCell ∧
        (item.epoch ≠ ep ∨ item.kind = ShareLane ∨ item.kind = ShareRing))) := by
  constructor
  · by_cases hb0 : s.bitmap = 0
    · have h1 : Roundabout.spinFenceScan s = [] := by
        unfold Roundabout.spinFenceScan
        simp [hb0]
      rw [h1, hb0]
      have h2 : ∀ i ∈ List.range 32,
          (if (0 : Nat).testBit ((s.epoch + 65536 - 32 + i) % 65536 % 32)
           then some ((s.epoch + 65536 - 32 + i) % 65536) else (none : Option Nat)) = none := by
        intro i _
        simp [Nat.zero_testBit]
      simp [List.filterMap_congr h2]
    · have h1 : Roundabout.spinFenceScan s =
          Roundabout.spinFenceGo 32 ((s.epoch + 65536 - 32) % 65536)
            (rotateLeft32 s.bitmap ((32 - s.epoch % width) % 32)) := by
        unfold Roundabout.spinFenceScan
        simp [hb0]
      rw [h1, spinFenceGo_eq 32 _ _ (Nat.mod_lt _ (by omega))]
      apply List.filterMap_congr
      intro i hi
      simp only [List.mem_range] at hi
      have hidx : ((s.epoch + 65536 - 32) % 65536 + i) % 65536 =
          (s.epoch + 65536 - 32 + i) % 65536 := by omega
      have hbit : ((rotateLeft32 s.bitmap ((32 - s.epoch % width) % 32)) >>> i) &&& 1 = 1 ↔
          s.bitmap.testBit ((s.epoch + 65536 - 32 + i) % 65536 % 32) = true := by
        rw [and_one_eq_one_iff_testBit,
          rotateLeft32_testBit _ _ _ hb (by unfold width; omega) hi]
        have hix : (i + 32 - (32 - s.epoch % width) % 32) % 32 =
            (s.epoch + 65536 - 32 + i) % 65536 % 32 := by
          unfold width
          omega
        rw [hix]
      by_cases hc : s.bitmap.testBit ((s.epoch + 65536 - 32 + i) % 65536 % 32) = true
      · rw [if_pos (hbit.2 hc), if_pos hc, hidx]
      · have hnc : ¬ ((rotateLeft32 s.bitmap ((32 - s.epoch % width) % 32)) >>> i) &&& 1 = 1 :=
          fun h => hc (hbit.1 h)
        rw [if_neg hnc, if_neg hc]
  · intro ep item
    unfold Roundabout.spinFenceStep
    split_ifs with h1 h2 h3 <;> simp_all

end Crow

namespace Crow

/-- concrete instance of claim C7, at a fence record with epoch 33 and
snapshot bitmap 5. -/
theorem spinFence_scan_and_step_witness :
    (rb_fence.mk 33 1 1 5).epoch < 65536 ∧ (rb_fence.mk 33 1 1 5).bitmap < 2 ^ 32 ∧
    (Roundabout.spinFenceScan (rb_fence.mk 33 1 1 5) =
      (List.range 32).filterMap (fun i =>
        if (rb_fence.mk 33 1 1 5).bitmap.testBit
            (((rb_fence.mk 33 1 1 5).epoch + 65536 - 32 + i) % 65536 % 32)
        then some (((rb_fence.mk 33 1 1 5).epoch + 65536 - 32 + i) % 65536) else none) ∧
    (∀ ep item, Roundabout.spinFenceStep ep item = .pass ↔
      (item.kind ≠ ZeroCell ∧
        (item.epoch ≠ ep ∨ item.kind = ShareLane ∨ item.kind = ShareRing)))) :=
  ⟨by decide, by decide,
    spinFence_scan_and_step (rb_fence.mk 33 1 1 5) (by decide) (by decide)⟩

end Crow

namespace Crow

theorem and_mask_eq_mod (x k : Nat) : x &&& (2 ^ k - 1) = x % 2 ^ k := by
  apply Nat.eq_of_testBit_eq
  intro i
  rw [Nat.testBit_land, Nat.testBit_two_pow_sub_one, Nat.testBit_mod_two_pow, Bool.and_comm]

theorem pack_testBit (e f b i : Nat) :
    (Header.pack (Header.mk e f b)).testBit i =
      ((decide (i ≥ 48) && e.testBit (i - 48)) ||
       (decide (i ≥ 32) && f.testBit (i - 32)) || b.testBit i) := by
  unfold Header.pack
  rw [Nat.testBit_lor, Nat.testBit_lor, Nat.testBit_shiftLeft, Nat.testBit_shiftLeft,
    Bool.or_assoc]

theorem epochField_pack (e f b : Nat) (he : e < 65536) (hf : f < 65536)
    (hb : b < 4294967296) : epochField (Header.pack (Header.mk e f b)) = e := by
  have he2 : e < 2 ^ 16 := lt_of_lt_of_le he (by norm_num)
  have hf2 : f < 2 ^ 16 := lt_of_lt_of_le hf (by norm_num)
  have hb2 : b < 2 ^ 32 := lt_of_lt_of_le hb (by norm_num)
  unfold epochField
  rw [show (65536 : Nat) = 2 ^ 16 from by norm_num]
  apply Nat.eq_of_testBit_eq
  intro i
  rw [Nat.testBit_mod_two_pow, Nat.testBit_shiftRight, pack_testBit]
  by_cases hi : i < 16
  · have hg : 48 + i ≥ 48 := by omega
    have hd : 48 + i - 48 = i := by omega
    have hfb : f.testBit (48 + i - 32) = false :=
      Nat.testBit_lt_two_pow (lt_of_lt_of_le hf2 (Nat.pow_le_pow_right (by omega) (by omega)))
    have hbb : b.testBit (48 + i) = false :=
      Nat.testBit_lt_two_pow (lt_of_lt_of_le hb2 (Nat.pow_le_pow_right (by omega) (by omega)))
    simp [hi, hg, hd, hfb, hbb]
  · have heb : e.testBit i = false :=
      Nat.testBit_lt_two_pow (lt_of_lt_of_le he2 (Nat.pow_le_pow_right (by omega) (by omega)))
    simp [hi, heb]

theorem flagsField_pack (e f b : Nat) (hf : f < 65536) (hb : b < 4294967296) :
    flagsField (Header.pack (Header.mk e f b)) = f := by
  have hf2 : f < 2 ^ 16 := lt_of_lt_of_le hf (by norm_num)
  have hb2 : b < 2 ^ 32 := lt_of_lt_of_le hb (by norm_num)
  unfold flagsField
  rw [show (65536 : Nat) = 2 ^ 16 from by norm_num]
  apply Nat.eq_of_testBit_eq
  intro i
  rw [Nat.testBit_mod_two_pow, Nat.testBit_shiftRight, pack_testBit]
  by_cases hi : i < 16
  · have hg1 : ¬ (32 + i ≥ 48) := by omega
    have hg2 : 32 + i ≥ 32 := by omega
    have hd : 32 + i - 32 = i := by omega
    have hbb : b.testBit (32 + i) = false :=
      Nat.testBit_lt_two_pow (lt_of_lt_of_le hb2 (Nat.pow_le_pow_right (by omega) (by omega)))
    simp [hi, hg1, hg2, hd, hbb]
  · have hfb : f.testBit i = false :=
      Nat.testBit_lt_two_pow (lt_of_lt_of_le hf2 (Nat.pow_le_pow_right (by omega) (by omega)))
    simp [hi, hfb]

theorem bitmapField_pack (e f b : Nat) (hb : b < 4294967296) :
    bitmapField (Header.pack (Header.mk e f b)) = b := by
  have hb2 : b < 2 ^ 32 := lt_of_lt_of_le hb (by norm_num)
  unfold bitmapField
  rw [show (4294967296 : Nat) = 2 ^ 32 from by norm_num]
  apply Nat.eq_of_testBit_eq
  intro i
  rw [Nat.testBit_mod_two_pow, pack_testBit]
  by_cases hi : i < 32
  · have hg1 : ¬ (i ≥ 48) := by omega
    have hg2 : ¬ (i ≥ 32) := by omega
    simp [hi, hg1, hg2]
  · have hbb : b.testBit i = false :=
      Nat.testBit_lt_two_pow (lt_of_lt_of_le hb2 (Nat.pow_le_pow_right (by omega) (by omega)))
    simp [hi, hbb]

theorem unpackHeader_pack (e f b : Nat) (he : e < 65536) (hf : f < 65536)
    (hb : b < 2147483648) :
    unpackHeader (Header.pack (Header.mk e f b)) = Header.mk e f b := by
  have hb32 : b < 4294967296 := by omega
  have hb31 : b < 2 ^ 31 := lt_of_lt_of_le hb (by norm_num)
  unfold unpackHeader
  simp only [Header.mk.injEq]
  refine ⟨?_, ?_, ?_⟩
  · rw [show (65535 : Nat) = 2 ^ 16 - 1 from by norm_num, and_mask_eq_mod]
    have h1 := epochField_pack e f b he hf hb32
    unfold epochField at h1
    rw [show (65536 : Nat) = 2 ^ 16 from by norm_num] at h1
    exact h1
  · rw [show (65535 : Nat) = 2 ^ 16 - 1 from by norm_num, and_mask_eq_mod]
    have h1 := flagsField_pack e f b hf hb32
    unfold flagsField at h1
    rw [show (65536 : Nat) = 2 ^ 16 from by norm_num] at h1
    exact h1
  · rw [show (2147483647 : Nat) = 2 ^ 31 - 1 from by norm_num, and_mask_eq_mod]
    apply Nat.eq_of_testBit_eq
    intro i
    rw [Nat.testBit_mod_two_pow, pack_testBit]
    by_cases hi : i < 31
    · have hg1 : ¬ (i ≥ 48) := by omega
      have hg2 : ¬ (i ≥ 32) := by omega
      simp [hi, hg1, hg2]
    · have hbb : b.testBit i = false :=
        Nat.testBit_lt_two_pow (lt_of_lt_of_le hb31 (Nat.pow_le_pow_right (by omega) (by omega)))
      simp [hi, hbb]

theorem unpackHeader_epoch_lt (h : Nat) : (unpackHeader h).epoch < 65536 :=
  lt_of_le_of_lt Nat.and_le_right (by norm_num)

theorem unpackHeader_flags_lt (h : Nat) : (unpackHeader h).flags < 65536 :=
  lt_of_le_of_lt Nat.and_le_right (by norm_num)

theorem unpackHeader_bitmap_lt (h : Nat) : (unpackHeader h).bitmap < 2147483648 :=
  lt_of_le_of_lt Nat.and_le_right (by norm_num)

theorem lor_xor_cancel (a f : Nat) (h : a &&& f = 0) : (a ||| f) ^^^ f = a := by
  apply Nat.eq_of_testBit_eq
  intro i
  have h0 : (a &&& f).testBit i = false := by rw [h]; exact Nat.zero_testBit i
  rw [Nat.testBit_land] at h0
  rw [Nat.testBit_xor, Nat.testBit_lor]
  cases ha : a.testBit i <;> cases hf : f.testBit i <;> simp_all

end Crow

namespace Crow

theorem unpackHeader_flags_eq_field (h : Nat) : (unpackHeader h).flags = flagsField h := by
  show h >>> 32 &&& 65535 = (h >>> 32) % 65536
  rw [show (65535 : Nat) = 2 ^ 16 - 1 from by norm_num, and_mask_eq_mod,
    show ((2 : Nat) ^ 16) = 65536 from by norm_num]

theorem unpackHeader_epoch_eq_field (h : Nat) : (unpackHeader h).epoch = epochField h := by
  show h >>> 48 &&& 65535 = (h >>> 48) % 65536
  rw [show (65535 : Nat) = 2 ^ 16 - 1 from by norm_num, and_mask_eq_mod,
    show ((2 : Nat) ^ 16) = 65536 from by norm_num]

set_option maxRecDepth 4000 in
/-- Claim C9: when `setFence` succeeds (no requested flag bit already set),
`Phase` invokes `fn` once with the start epoch and the merged flags; on a
non-nil error the flags are still cleared, `after` is not invoked and the
error is returned unchanged; on nil, `after` is invoked exactly once with
the start epoch and the epoch captured at clearing, and its result is
returned.  The final header has its flags subfield restored and its epoch
subfield unchanged. -/
theorem Phase_error_handling {ε : Type} (rb : Roundabout) (flags : Nat)
    (fn after : Nat → Nat → Option ε)
    (hdisj : (unpackHeader rb.header).flags &&& flags = 0) (hfl : flags < 65536) :
    ∃ rb2 : Roundabout,
      Roundabout.Phase rb flags fn after =
        some ((fn (Roundabout.Epoch rb) (Roundabout.Flags rb ||| flags)).elim
                (after (Roundabout.Epoch rb) (Roundabout.Epoch rb)) some,
              rb2,
              [(Roundabout.Epoch rb, Roundabout.Flags rb ||| flags)],
              (fn (Roundabout.Epoch rb) (Roundabout.Flags rb ||| flags)).elim
                [(Roundabout.Epoch rb, Roundabout.Epoch rb)] (fun _ => [])) ∧
      flagsField rb2.header = flagsField rb.header ∧
      epochField rb2.header = epochField rb.header := by
  have he0 : (unpackHeader rb.header).epoch < 65536 := unpackHeader_epoch_lt rb.header
  have hf0 : (unpackHeader rb.header).flags < 65536 := unpackHeader_flags_lt rb.header
  have hb0 : (unpackHeader rb.header).bitmap < 2147483648 := unpackHeader_bitmap_lt rb.header
  have hm : (unpackHeader rb.header).flags ||| flags < 65536 := by
    have h1 : (unpackHeader rb.header).flags < 2 ^ 16 := lt_of_lt_of_le hf0 (by norm_num)
    have h2 : flags < 2 ^ 16 := lt_of_lt_of_le hfl (by norm_num)
    have := Nat.or_lt_two_pow h1 h2
    omega
  have hsf : Roundabout.setFence rb flags =
      (some (rb_fence.mk (unpackHeader rb.header).epoch flags
          ((unpackHeader rb.header).flags ||| flags) (unpackHeader rb.header).bitmap),
       Roundabout.mk
         ((Header.mk (unpackHeader rb.header).epoch
             ((unpackHeader rb.header).flags ||| flags) (unpackHeader rb.header).bitmap).pack)
         rb.log) := by
    unfold Roundabout.setFence
    simp [hdisj]
  have hun : unpackHeader ((Header.mk (unpackHeader rb.header).epoch
      ((unpackHeader rb.header).flags ||| flags) (unpackHeader rb.header).bitmap).pack) =
      Header.mk (unpackHeader rb.header).epoch
        ((unpackHeader rb.header).flags ||| flags) (unpackHeader rb.header).bitmap :=
    unpackHeader_pack _ _ _ he0 hm hb0
  have hE : Roundabout.Epoch rb = (unpackHeader rb.header).epoch := rfl
  have hF : Roundabout.Flags rb = (unpackHeader rb.header).flags := rfl
  have hcl : ((unpackHeader rb.header).flags ||| flags) ^^^ flags =
      (unpackHeader rb.header).flags := lor_xor_cancel _ _ hdisj
  refine ⟨Roundabout.mk ((Header.mk (unpackHeader rb.header).epoch
      (unpackHeader rb.header).flags (unpackHeader rb.header).bitmap).pack) rb.log, ?_, ?_, ?_⟩
  · simp only [Roundabout.Phase, hsf, Roundabout.clearFence, hE, hF]
    rw [hun]
    cases hfn : fn (unpackHeader rb.header).epoch ((unpackHeader rb.header).flags ||| flags) with
    | none => simp [hfn, hcl]
    | some err => simp [hfn, hcl]
  · rw [flagsField_pack _ _ _ hf0 (by omega)]
    rw [← unpackHeader_flags_eq_field]
  · rw [epochField_pack _ _ _ he0 hf0 (by omega)]
    rw [← unpackHeader_epoch_eq_field]

/-- concrete instance of claim C9, on the zero-initialised roundabout with
flag bit 1 and callbacks that return nil. -/
theorem Phase_error_handling_witness :
    (unpackHeader Roundabout.init.header).flags &&& 1 = 0 ∧ (1 : Nat) < 65536 ∧
    (∃ rb2 : Roundabout,
      Roundabout.Phase Roundabout.init 1 (fun _ _ => (none : Option Nat)) (fun _ _ => none) =
        some ((((fun (_ _ : Nat) => (none : Option Nat)) (Roundabout.Epoch Roundabout.init)
                  (Roundabout.Flags Roundabout.init ||| 1)).elim
                ((fun (_ _ : Nat) => (none : Option Nat)) (Roundabout.Epoch Roundabout.init)
                  (Roundabout.Epoch Roundabout.init)) some),
              rb2,
              [(Roundabout.Epoch Roundabout.init, Roundabout.Flags Roundabout.init ||| 1)],
              (((fun (_ _ : Nat) => (none : Option Nat)) (Roundabout.Epoch Roundabout.init)
                  (Roundabout.Flags Roundabout.init ||| 1)).elim
                [(Roundabout.Epoch Roundabout.init, Roundabout.Epoch Roundabout.init)]
                (fun _ => []))) ∧
      flagsField rb2.header = flagsField Roundabout.init.header ∧
      epochField rb2.header = epochField Roundabout.init.header) :=
  ⟨by decide, by decide,
    Phase_error_handling Roundabout.init 1 (fun _ _ => none) (fun _ _ => none)
      (by decide) (by decide)⟩

end Crow

namespace Crow

theorem push_eq_of_ok (rb : Roundabout) (lane kind : Nat)
    (hok : (unpackHeader rb.header).bitmap &&&
      (1 <<< ((unpackHeader rb.header).epoch % width)) = 0) :
    Roundabout.push rb lane kind =
      (some (rb_cell.mk ((unpackHeader rb.header).epoch % width)
          (unpackHeader rb.header).epoch (unpackHeader rb.header).flags kind lane
          (unpackHeader rb.header).bitmap),
       Roundabout.mk
         ((Header.mk (((unpackHeader rb.header).epoch + 1) % 65536)
             (unpackHeader rb.header).flags
             ((unpackHeader rb.header).bitmap |||
               (1 <<< ((unpackHeader rb.header).epoch % width)))).pack)
         (rb.log.set ((unpackHeader rb.header).epoch % width)
           ((Cell.mk (unpackHeader rb.header).epoch kind lane).pack))) := by
  unfold Roundabout.push
  simp [hok]

/-- Claim C10: each of the six ring operations, once its push succeeds,
invokes the user callback exactly once with the admission epoch and the
pre-admission header flags, and returns exactly the callback result. -/
theorem ring_ops_invoke_callback_once {ε : Type} (rb : Roundabout) (lane : Nat)
    (fn : Nat → Nat → Option ε)
    (hok : (unpackHeader rb.header).bitmap &&&
      (1 <<< ((unpackHeader rb.header).epoch % width)) = 0) :
    (∃ rb2, Roundabout.LockLane rb lane fn =
      some (fn (Roundabout.Epoch rb) (Roundabout.Flags rb), rb2,
        [(Roundabout.Epoch rb, Roundabout.Flags rb)])) ∧
    (∃ rb2, Roundabout.OrderLane rb lane fn =
      some (fn (Roundabout.Epoch rb) (Roundabout.Flags rb), rb2,
        [(Roundabout.Epoch rb, Roundabout.Flags rb)])) ∧
    (∃ rb2, Roundabout.ShareLane rb lane fn =
      some (fn (Roundabout.Epoch rb) (Roundabout.Flags rb), rb2,
        [(Roundabout.Epoch rb, Roundabout.Flags rb)])) ∧
    (∃ rb2, Roundabout.LockRing rb fn =
      some (fn (Roundabout.Epoch rb) (Roundabout.Flags rb), rb2,
        [(Roundabout.Epoch rb, Roundabout.Flags rb)])) ∧
    (∃ rb2, Roundabout.OrderRing rb fn =
      some (fn (Roundabout.Epoch rb) (Roundabout.Flags rb), rb2,
        [(Roundabout.Epoch rb, Roundabout.Flags rb)])) ∧
    (∃ rb2, Roundabout.ShareRing rb fn =
      some (fn (Roundabout.Epoch rb) (Roundabout.Flags rb), rb2,
        [(Roundabout.Epoch rb, Roundabout.Flags rb)])) := by
  refine ⟨?_, ?_, ?_, ?_, ?_, ?_⟩
  · exact ⟨_, by unfold Roundabout.LockLane; rw [push_eq_of_ok rb lane Crow.LockLane hok]; rfl⟩
  · exact ⟨_, by unfold Roundabout.OrderLane; rw [push_eq_of_ok rb lane Crow.OrderLane hok]; rfl⟩
  · exact ⟨_, by unfold Roundabout.ShareLane; rw [push_eq_of_ok rb lane Crow.ShareLane hok]; rfl⟩
  · exact ⟨_, by unfold Roundabout.LockRing; rw [push_eq_of_ok rb 0 Crow.LockRing hok]; rfl⟩
  · exact ⟨_, by unfold Roundabout.OrderRing; rw [push_eq_of_ok rb 0 Crow.OrderRing hok]; rfl⟩
  · exact ⟨_, by unfold Roundabout.ShareRing; rw [push_eq_of_ok rb 0 Crow.ShareRing hok]; rfl⟩

/-- concrete instance of claim C10, on the zero-initialised roundabout with
lane 5 and a callback returning its arguments. -/
theorem ring_ops_invoke_callback_once_witness :
    (unpackHeader Roundabout.init.header).bitmap &&&
      (1 <<< ((unpackHeader Roundabout.init.header).epoch % width)) = 0 ∧
    ((∃ rb2, Roundabout.LockLane Roundabout.init 5 (fun a b => some (a, b)) =
      some (some (Roundabout.Epoch Roundabout.init, Roundabout.Flags Roundabout.init), rb2,
        [(Roundabout.Epoch Roundabout.init, Roundabout.Flags Roundabout.init)])) ∧
    (∃ rb2, Roundabout.OrderLane Roundabout.init 5 (fun a b => some (a, b)) =
      some (some (Roundabout.Epoch Roundabout.init, Roundabout.Flags Roundabout.init), rb2,
        [(Roundabout.Epoch Roundabout.init, Roundabout.Flags Roundabout.init)])) ∧
    (∃ rb2, Roundabout.ShareLane Roundabout.init 5 (fun a b => some (a, b)) =
      some (some (Roundabout.Epoch Roundabout.init, Roundabout.Flags Roundabout.init), rb2,
        [(Roundabout.Epoch Roundabout.init, Roundabout.Flags Roundabout.init)])) ∧
    (∃ rb2, Roundabout.LockRing Roundabout.init (fun a b => some (a, b)) =
      some (some (Roundabout.Epoch Roundabout.init, Roundabout.Flags Roundabout.init), rb2,
        [(Roundabout.Epoch Roundabout.init, Roundabout.Flags Roundabout.init)])) ∧
    (∃ rb2, Roundabout.OrderRing Roundabout.init (fun a b => some (a, b)) =
      some (some (Roundabout.Epoch Roundabout.init, Roundabout.Flags Roundabout.init), rb2,
        [(Roundabout.Epoch Roundabout.init, Roundabout.Flags Roundabout.init)])) ∧
    (∃ rb2, Roundabout.ShareRing Roundabout.init (fun a b => some (a, b)) =
      some (some (Roundabout.Epoch Roundabout.init, Roundabout.Flags Roundabout.init), rb2,
        [(Roundabout.Epoch Roundabout.init, Roundabout.Flags Roundabout.init)]))) :=
  ⟨by decide,
    ring_ops_invoke_callback_once Roundabout.init 5 (fun a b => some (a, b)) (by decide)⟩

end Crow
